import Mathlib

/-!
Verification of `alcoholic_jwt` (src/lib.rs), a library validating JSON Web
Tokens signed with RS256 against RSA public keys given in JWKS form.

The library's own logic (token splitting, error routing, orchestration) is
embedded directly.  The external crates it calls — the base64 codec, the JSON
codec (serde_json) and openssl — are collaborators per the design document;
they are modelled as a record of oracle functions (`Collab`) over which all
theorems quantify.  Concrete demonstration instances (a real base64url codec
and a small JSON parser) are provided for witnesses and counterexamples.

Strings are modelled as `List Char`; byte sequences as `List Nat` (each entry
a byte value).  `Except err α` models Rust's `Result<T, E>`; `Option` models
the places where the source discards the underlying error with `map_err`.
JSON numbers are modelled as integers: no claim in scope depends on floating
point behaviour, and the JSON codec itself is an abstract collaborator.
-/

/-- Generic JSON value, standing for `serde_json::Value`. -/
inductive Json where
  | null : Json
  | bool (b : Bool) : Json
  | num (n : Int) : Json
  | str (s : String) : Json
  | arr (elems : List Json) : Json
  | obj (fields : List (String × Json)) : Json

/-- JWT algorithm used; the only supported algorithm is RS256 (lib.rs line 76). -/
inductive KeyAlgorithm where
  | RS256 : KeyAlgorithm
deriving DecidableEq

/-- Type of key contained in a JWT; the only supported type is RSA (lib.rs line 81). -/
inductive KeyType where
  | RSA : KeyType
deriving DecidableEq

/-- Representation of a single JSON Web Key (lib.rs lines 87-97). -/
structure JWK where
  kty : KeyType
  alg : Option KeyAlgorithm
  kid : Option String
  n : List Char
  e : List Char

/-- Representation of a set of JSON Web Keys (lib.rs lines 102-110). -/
structure JWKS where
  keys : List JWK

/-- Representation of a decoded and validated JSON Web Token (lib.rs lines 128-139). -/
structure ValidJWT where
  headers : Json
  claims : Json

/-- Possible token claim validations (lib.rs lines 144-155). -/
inductive Validation where
  | Issuer (expected : String) : Validation
  | Audience (expected : String) : Validation
  | SubjectPresent : Validation

/-- Possible results of a token validation (lib.rs lines 159-180).
openssl `ErrorStack` values and `serde_json::Error` values are modelled as
opaque numeric identifiers. -/
inductive ValidationError where
  | MalformedJWT : ValidationError
  | InvalidJWK : ValidationError
  | InvalidSignature : ValidationError
  | OpenSSL (e : Nat) : ValidationError
  | JSON (e : Nat) : ValidationError
  | InvalidClaims : ValidationError
deriving DecidableEq

/-- The specialised header representation used by `token_kid` (lib.rs lines 210-213). -/
structure KidOnly where
  kid : Option String
deriving DecidableEq

/-- Handle for an openssl `Rsa<Public>` object, interpreted by the oracles. -/
abbrev Rsa : Type := Nat × Nat

/-- Handle for an openssl verifier (`PKey` plus `Verifier`), interpreted by the oracles. -/
abbrev Verifier : Type := Nat

/-- The external collaborators called by the library: the base64 crate, the two
serde_json deserialisations the code instantiates, and the openssl calls.
`b64decode` is an `Option` because every call site discards the error with
`map_err`; the others keep an opaque error identifier.  `mkVerifier` bundles
`PKey::from_rsa` plus `Verifier::new` (both occur before any token inspection
and both map into the OpenSSL error), and `runVerify` bundles
`Verifier::update` plus `Verifier::verify` (both occur after the signature has
been base64-decoded). -/
structure Collab where
  b64decode : List Char → Option (List Nat)
  jsonParse : List Nat → Except Nat Json
  kidParse : List Nat → Except Nat KidOnly
  bignumFromSlice : List Nat → Except Nat Nat
  rsaFromComponents : Nat → Nat → Except Nat Rsa
  mkVerifier : Rsa → Except Nat Verifier
  runVerify : Verifier → List Nat → List Nat → Except Nat Bool

/-- First split of a character list at a separator: `some (before, after)` at
the first occurrence, `none` when the separator does not occur. -/
def splitFirst (sep : Char) : List Char → Option (List Char × List Char)
  | [] => none
  | c :: rest =>
    if c = sep then some ([], rest)
    else
      match splitFirst sep rest with
      | none => none
      | some (a, b) => some (c :: a, b)

/-- Rust's `str::splitn(n, sep)`: at most `n` pieces, the last piece holding
the unsplit remainder. -/
def splitn (sep : Char) : Nat → List Char → List (List Char)
  | 0, _ => []
  | 1, s => [s]
  | n + 2, s =>
    match splitFirst sep s with
    | none => [s]
    | some (a, b) => a :: splitn sep (n + 1) b

/-- Rust's `str::rsplitn(n, sep)`: like `splitn` but from the back, yielding
pieces in back-to-front order. -/
def rsplitn (sep : Char) (n : Nat) (s : List Char) : List (List Char) :=
  (splitn sep n s.reverse).map List.reverse

/-- UTF-8 byte encoding of a character list, standing for `str::as_bytes`. -/
def utf8Bytes : List Char → List Nat
  | [] => []
  | c :: cs =>
    let n := c.toNat
    (if n < 128 then [n]
     else if n < 2048 then [192 + n / 64, 128 + n % 64]
     else if n < 65536 then [224 + n / 4096, 128 + (n / 64) % 64, 128 + n % 64]
     else [240 + n / 262144, 128 + (n / 4096) % 64, 128 + (n / 64) % 64, 128 + n % 64])
      ++ utf8Bytes cs

/-- Number of `.` separators in a token. -/
def dotCount (t : List Char) : Nat := t.count '.'

/-- Attempt to find a JWK by its key ID (lib.rs lines 114-116). -/
def JWKS.find (self : JWKS) (kid : String) : Option JWK :=
  self.keys.find? (fun jwk => jwk.kid == some kid)

/-- `deserialize_part` (lib.rs lines 277-282) instantiated at `Value`:
base64url-decode, then JSON-parse.  Base64 failure is mapped to
`MalformedJWT`; the JSON error is wrapped by the `From` conversion
(lib.rs lines 188-190). -/
def deserialize_part_json (C : Collab) (part : List Char) : Except ValidationError Json :=
  match C.b64decode part with
  | none => Except.error ValidationError.MalformedJWT
  | some json =>
    match C.jsonParse json with
    | Except.error e => Except.error (ValidationError.JSON e)
    | Except.ok v => Except.ok v

/-- `deserialize_part` (lib.rs lines 277-282) instantiated at `KidOnly`. -/
def deserialize_part_kid (C : Collab) (part : List Char) : Except ValidationError KidOnly :=
  match C.b64decode part with
  | none => Except.error ValidationError.MalformedJWT
  | some json =>
    match C.kidParse json with
    | Except.error e => Except.error (ValidationError.JSON e)
    | Except.ok v => Except.ok v

/-- Attempt to extract the `kid`-claim out of a JWT's header claims
(lib.rs lines 200-218).  `splitn 2` yields two parts exactly when the token
contains at least one `.`; otherwise the token is malformed. -/
def token_kid (C : Collab) (token : List Char) : Except ValidationError (Option String) :=
  match splitn '.' 2 token with
  | [part0, _] =>
    match deserialize_part_kid C part0 with
    | Except.error e => Except.error e
    | Except.ok kid_only => Except.ok kid_only.kid
  | _ => Except.error ValidationError.MalformedJWT

/-- Decode a single key fragment to a big number (lib.rs lines 260-265).
Base64 failure maps to `InvalidJWK`; a `BigNum::from_slice` failure maps
through `From<ErrorStack>` to the OpenSSL error. -/
def decode_fragment (C : Collab) (fragment : List Char) : Except ValidationError Nat :=
  match C.b64decode fragment with
  | none => Except.error ValidationError.InvalidJWK
  | some bytes =>
    match C.bignumFromSlice bytes with
    | Except.error e => Except.error (ValidationError.OpenSSL e)
    | Except.ok bn => Except.ok bn

/-- Decode an RSA public key from a JWK (lib.rs lines 269-273).  A
`Rsa::from_public_components` failure maps through `From<ErrorStack>` to the
OpenSSL error. -/
def public_key_from_jwk (C : Collab) (jwk : JWK) : Except ValidationError Rsa :=
  match decode_fragment C jwk.n with
  | Except.error e => Except.error e
  | Except.ok jwk_n =>
    match decode_fragment C jwk.e with
    | Except.error e => Except.error e
    | Except.ok jwk_e =>
      match C.rsaFromComponents jwk_n jwk_e with
      | Except.error e => Except.error (ValidationError.OpenSSL e)
      | Except.ok key => Except.ok key

/-- Validate the signature on a JWT using a provided public key
(lib.rs lines 288-317).  The verifier is constructed first; then the token is
split from the back into (encoded signature, signed payload); the signature is
base64-decoded (failure maps to `MalformedJWT`); finally the verifier runs:
`true` is success, `false` is `InvalidSignature`, and an openssl fault maps to
the OpenSSL error. -/
def validate_jwt_signature (C : Collab) (jwt : List Char) (key : Rsa) :
    Except ValidationError Unit :=
  match C.mkVerifier key with
  | Except.error e => Except.error (ValidationError.OpenSSL e)
  | Except.ok verifier =>
    match rsplitn '.' 2 jwt with
    | [sig_b64, data] =>
      match C.b64decode sig_b64 with
      | none => Except.error ValidationError.MalformedJWT
      | some sig =>
        match C.runVerify verifier (utf8Bytes data) sig with
        | Except.error e => Except.error (ValidationError.OpenSSL e)
        | Except.ok true => Except.ok ()
        | Except.ok false => Except.error ValidationError.InvalidSignature
    | _ => Except.error ValidationError.MalformedJWT

/-- Validate the signature of a JSON Web Token and optionally apply claim
validations (lib.rs lines 230-251).  Faithful to the source: the
`validations` argument is received but never consulted by the body. -/
def validate (C : Collab) (token : List Char) (jwk : JWK)
    (validations : List Validation) : Except ValidationError ValidJWT :=
  match public_key_from_jwk C jwk with
  | Except.error e => Except.error e
  | Except.ok public_key =>
    match validate_jwt_signature C token public_key with
    | Except.error e => Except.error e
    | Except.ok _ =>
      match splitn '.' 3 token with
      | [part0, part1, _] =>
        match deserialize_part_json C part0 with
        | Except.error e => Except.error e
        | Except.ok headers =>
          match deserialize_part_json C part1 with
          | Except.error e => Except.error e
          | Except.ok claims => Except.ok { headers := headers, claims := claims }
      | _ => Except.error ValidationError.MalformedJWT

/-- Field lookup in a JSON object's field list (first occurrence). -/
def jlookup (key : String) : List (String × Json) → Option Json
  | [] => none
  | (k, v) :: rest => if k = key then some v else jlookup key rest

/-- Modelled from the spec: the claim-check directive semantics of design
section 4.5 (`Issuer(expected)` passes iff field `iss` equals `expected`,
`Audience(expected)` iff field `aud` equals `expected`, `SubjectPresent` iff a
non-null `sub` field exists).  No corresponding code exists in src/lib.rs:
`validate` receives the directive list but never evaluates it. -/
def validate_claim (v : Validation) (claims : Json) : Bool :=
  match claims with
  | Json.obj fields =>
    match v with
    | Validation.Issuer expected =>
      match jlookup "iss" fields with
      | some (Json.str s) => s = expected
      | _ => false
    | Validation.Audience expected =>
      match jlookup "aud" fields with
      | some (Json.str s) => s = expected
      | _ => false
    | Validation.SubjectPresent =>
      match jlookup "sub" fields with
      | none => false
      | some Json.null => false
      | some _ => true
  | _ => false

/-! Concrete demonstration collaborators, used by witnesses and
counterexamples: a genuine base64url codec (RFC 4648 URL-safe alphabet) and a
small recursive-descent JSON parser over ASCII bytes. -/

/-- Map a base64url alphabet character to its 6-bit value. -/
def b64Val (c : Char) : Option Nat :=
  if 65 ≤ c.toNat ∧ c.toNat ≤ 90 then some (c.toNat - 65)
  else if 97 ≤ c.toNat ∧ c.toNat ≤ 122 then some (c.toNat - 71)
  else if 48 ≤ c.toNat ∧ c.toNat ≤ 57 then some (c.toNat + 4)
  else if c = '-' then some 62
  else if c = '_' then some 63
  else none

/-- 6-bit value to base64url alphabet character. -/
def b64Char (n : Nat) : Char :=
  if n < 26 then Char.ofNat (65 + n)
  else if n < 52 then Char.ofNat (97 + n - 26)
  else if n < 62 then Char.ofNat (48 + n - 52)
  else if n = 62 then '-'
  else '_'

/-- Map every character of a fragment to its 6-bit value, failing on a
character outside the alphabet. -/
def b64Vals : List Char → Option (List Nat)
  | [] => some []
  | c :: cs =>
    match b64Val c with
    | none => none
    | some v =>
      match b64Vals cs with
      | none => none
      | some vs => some (v :: vs)

/-- Pack a list of 6-bit values into bytes: full groups of four sextets give
three bytes; a trailing group of two or three sextets gives one or two bytes;
a trailing single sextet is invalid. -/
def b64Pack : List Nat → Option (List Nat)
  | [] => some []
  | [_] => none
  | [a, b] => some [a * 4 + b / 16]
  | [a, b, c] => some [a * 4 + b / 16, (b % 16) * 16 + c / 4]
  | a :: b :: c :: d :: rest =>
    match b64Pack rest with
    | none => none
    | some bs =>
      some ((a * 4 + b / 16) :: ((b % 16) * 16 + c / 4) :: ((c % 4) * 64 + d) :: bs)

/-- Strip up to two trailing padding characters, as the base64 crate accepts
padded and unpadded input. -/
def b64StripPad (s : List Char) : List Char :=
  match s.reverse with
  | '=' :: '=' :: rest => rest.reverse
  | '=' :: rest => rest.reverse
  | _ => s

/-- Base64url decoding: demonstration instance of the base64 collaborator. -/
def b64urlDecode (s : List Char) : Option (List Nat) :=
  match b64Vals (b64StripPad s) with
  | none => none
  | some vs => b64Pack vs

/-- Base64url encoding without padding (as used to build JWTs); inverse of
`b64urlDecode` on byte lists. -/
def b64urlEncode : List Nat → List Char
  | [] => []
  | [a] => [b64Char (a / 4), b64Char (a % 4 * 16)]
  | [a, b] => [b64Char (a / 4), b64Char (a % 4 * 16 + b / 16), b64Char (b % 16 * 4)]
  | a :: b :: c :: rest =>
    b64Char (a / 4) :: b64Char (a % 4 * 16 + b / 16) ::
      b64Char (b % 16 * 4 + c / 64) :: b64Char (c % 64) :: b64urlEncode rest

/-- Whitespace recognised by the demonstration JSON parser. -/
def isJsonWs (c : Char) : Bool :=
  c = ' ' ∨ c = Char.ofNat 10 ∨ c = Char.ofNat 13 ∨ c = Char.ofNat 9

/-- Skip leading JSON whitespace. -/
def skipWs : List Char → List Char
  | [] => []
  | c :: cs => if isJsonWs c then skipWs cs else c :: cs

/-- Parse the remainder of a JSON string literal after the opening quote.
Escape sequences are not supported by this demonstration parser. -/
def parseStrLit : List Char → Option (String × List Char)
  | [] => none
  | c :: cs =>
    if c = Char.ofNat 34 then some ("", cs)
    else if c = Char.ofNat 92 then none
    else
      match parseStrLit cs with
      | none => none
      | some (s, rest) => some (String.mk (c :: s.data), rest)

/-- Split leading decimal digits off a character list. -/
def takeDigits : List Char → (List Char × List Char)
  | [] => ([], [])
  | c :: cs =>
    if c.isDigit then
      let (ds, rest) := takeDigits cs
      (c :: ds, rest)
    else ([], c :: cs)

/-- Decimal digit characters to a natural number. -/
def digitsToNat (ds : List Char) : Nat :=
  ds.foldl (fun a c => a * 10 + (c.toNat - 48)) 0

mutual

/-- Fueled JSON value parser: demonstration instance over ASCII characters. -/
def parseVal : Nat → List Char → Option (Json × List Char)
  | 0, _ => none
  | fuel + 1, s =>
    match skipWs s with
    | [] => none
    | c :: cs =>
      if c = Char.ofNat 34 then
        match parseStrLit cs with
        | none => none
        | some (str, rest) => some (Json.str str, rest)
      else if c = 't' then
        match cs with
        | 'r' :: 'u' :: 'e' :: rest => some (Json.bool true, rest)
        | _ => none
      else if c = 'f' then
        match cs with
        | 'a' :: 'l' :: 's' :: 'e' :: rest => some (Json.bool false, rest)
        | _ => none
      else if c = 'n' then
        match cs with
        | 'u' :: 'l' :: 'l' :: rest => some (Json.null, rest)
        | _ => none
      else if c = '-' then
        match takeDigits cs with
        | ([], _) => none
        | (ds, rest) => some (Json.num (-(digitsToNat ds : Int)), rest)
      else if c.isDigit then
        match takeDigits (c :: cs) with
        | (ds, rest) => some (Json.num (digitsToNat ds), rest)
      else if c = '[' then
        match skipWs cs with
        | ']' :: rest => some (Json.arr [], rest)
        | _ =>
          match parseArrItems fuel cs with
          | none => none
          | some (vs, rest) => some (Json.arr vs, rest)
      else if c = Char.ofNat 123 then
        match skipWs cs with
        | d :: rest =>
          if d = Char.ofNat 125 then some (Json.obj [], rest)
          else
            match parseObjItems fuel (d :: rest) with
            | none => none
            | some (fs, rest2) => some (Json.obj fs, rest2)
        | [] => none
      else none

/-- Parse one-or-more comma-separated array items up to the closing bracket. -/
def parseArrItems : Nat → List Char → Option (List Json × List Char)
  | 0, _ => none
  | fuel + 1, s =>
    match parseVal fuel s with
    | none => none
    | some (v, rest) =>
      match skipWs rest with
      | c :: cs =>
        if c = ',' then
          match parseArrItems fuel cs with
          | none => none
          | some (vs, rest2) => some (v :: vs, rest2)
        else if c = ']' then some ([v], cs)
        else none
      | [] => none

/-- Parse one-or-more comma-separated object fields up to the closing brace. -/
def parseObjItems : Nat → List Char → Option (List (String × Json) × List Char)
  | 0, _ => none
  | fuel + 1, s =>
    match skipWs s with
    | c :: cs =>
      if c = Char.ofNat 34 then
        match parseStrLit cs with
        | none => none
        | some (key, rest) =>
          match skipWs rest with
          | ':' :: rest2 =>
            match parseVal fuel rest2 with
            | none => none
            | some (v, rest3) =>
              match skipWs rest3 with
              | d :: ds =>
                if d = ',' then
                  match parseObjItems fuel ds with
                  | none => none
                  | some (fs, rest4) => some ((key, v) :: fs, rest4)
                else if d = Char.ofNat 125 then some ([(key, v)], ds)
                else none
              | [] => none
          | _ => none
      else none
    | [] => none

end

/-- Demonstration instance of `serde_json::from_slice` at `Value`: interpret
the bytes as characters, parse a single JSON value, and require only trailing
whitespace after it.  All failures carry the opaque error identifier 0. -/
def jsonParseSimple (bs : List Nat) : Except Nat Json :=
  let s := bs.map Char.ofNat
  match parseVal (s.length + 2) s with
  | none => Except.error 0
  | some (v, rest) =>
    match skipWs rest with
    | [] => Except.ok v
    | _ => Except.error 0

/-- Demonstration instance of `serde_json::from_slice` at `KidOnly`: requires
a JSON object; an absent or null `kid` field deserialises to `none`, a string
to `some`, and any other shape is a deserialisation error. -/
def kidParseSimple (bs : List Nat) : Except Nat KidOnly :=
  match jsonParseSimple bs with
  | Except.error e => Except.error e
  | Except.ok (Json.obj fields) =>
    match jlookup "kid" fields with
    | none => Except.ok { kid := none }
    | some Json.null => Except.ok { kid := none }
    | some (Json.str s) => Except.ok { kid := some s }
    | some _ => Except.error 1
  | Except.ok _ => Except.error 1

/-- Big-endian byte interpretation, demonstrating `BigNum::from_slice`
(which accepts any byte sequence). -/
def beBytesToNat (bs : List Nat) : Nat :=
  bs.foldl (fun a b => a * 256 + b) 0

/-- Demonstration collaborators: real base64url and JSON codecs, and openssl
oracles on which every operation succeeds — `runVerify` answers `true`,
standing for a token whose signature matches. -/
def demoCollab : Collab where
  b64decode := b64urlDecode
  jsonParse := jsonParseSimple
  kidParse := kidParseSimple
  bignumFromSlice := fun bs => Except.ok (beBytesToNat bs)
  rsaFromComponents := fun n e => Except.ok (n, e)
  mkVerifier := fun _ => Except.ok 0
  runVerify := fun _ _ _ => Except.ok true

/-- Like `demoCollab`, but the verifier answers `false`: the signature does
not match. -/
def mismatchCollab : Collab :=
  { demoCollab with runVerify := fun _ _ _ => Except.ok false }

/-- Like `demoCollab`, but `Rsa::from_public_components` rejects a zero
modulus with an operational error (identifier 7). -/
def rejectCollab : Collab :=
  { demoCollab with
      rsaFromComponents := fun n e =>
        if n = 0 then Except.error 7 else Except.ok (n, e) }

/-- A JWK whose modulus field decodes to the single byte 0 (zero modulus). -/
def zeroJwk : JWK where
  kty := KeyType.RSA
  alg := some KeyAlgorithm.RS256
  kid := some "zero"
  n := ['A', 'A']
  e := ['A', 'Q', 'A', 'B']

/-- A demonstration JWK with ordinary decodable fields. -/
def demoJwk : JWK where
  kty := KeyType.RSA
  alg := some KeyAlgorithm.RS256
  kid := some "demo"
  n := ['A', 'Q', 'A', 'B']
  e := ['A', 'Q', 'A', 'B']

/-! Lemmas about the splitting primitives. -/

theorem splitFirst_eq_none (sep : Char) (s : List Char) :
    splitFirst sep s = none ↔ sep ∉ s := by
  induction s with
  | nil => simp [splitFirst]
  | cons c rest ih =>
    by_cases hc : c = sep
    · subst hc
      simp [splitFirst]
    · cases h : splitFirst sep rest with
      | none =>
        have hrest : sep ∉ rest := ih.mp h
        simp only [splitFirst, if_neg hc, h, List.mem_cons, true_iff]
        intro hmem
        rcases hmem with hmem | hmem
        · exact hc hmem.symm
        · exact hrest hmem
      | some p =>
        obtain ⟨a, b⟩ := p
        have hrest : sep ∈ rest := by
          by_contra hn
          rw [ih.mpr hn] at h
          exact Option.noConfusion h
        simp only [splitFirst, if_neg hc, h, List.mem_cons]
        constructor
        · intro hcontra
          exact Option.noConfusion hcontra
        · intro hcontra
          exact absurd (Or.inr hrest) hcontra

theorem splitFirst_eq_some (sep : Char) :
    ∀ (s a b : List Char), splitFirst sep s = some (a, b) →
      s = a ++ sep :: b ∧ sep ∉ a := by
  intro s
  induction s with
  | nil =>
    intro a b h
    simp [splitFirst] at h
  | cons c rest ih =>
    intro a b h
    by_cases hc : c = sep
    · subst hc
      simp only [splitFirst, if_pos, Option.some.injEq, Prod.mk.injEq] at h
      obtain ⟨ha, hb⟩ := h
      subst ha
      subst hb
      simp
    · simp only [splitFirst, if_neg hc] at h
      cases hres : splitFirst sep rest with
      | none =>
        rw [hres] at h
        exact Option.noConfusion h
      | some p =>
        obtain ⟨a2, b2⟩ := p
        rw [hres] at h
        simp only [Option.some.injEq, Prod.mk.injEq] at h
        obtain ⟨ha, hb⟩ := h
        obtain ⟨hrest, hnmem⟩ := ih a2 b2 hres
        subst ha
        subst hb
        constructor
        · rw [hrest]
          simp
        · intro hmem
          rcases List.mem_cons.mp hmem with hmem | hmem
          · exact hc hmem.symm
          · exact hnmem hmem

theorem splitFirst_append (sep : Char) :
    ∀ (a b : List Char), sep ∉ a → splitFirst sep (a ++ sep :: b) = some (a, b) := by
  intro a
  induction a with
  | nil =>
    intro b _
    simp [splitFirst]
  | cons c rest ih =>
    intro b hmem
    have hc : ¬c = sep := by
      intro hcontra
      exact hmem (by simp [hcontra])
    have hrest : sep ∉ rest := by
      intro hcontra
      exact hmem (List.mem_cons_of_mem c hcontra)
    have hstep : splitFirst sep (rest ++ sep :: b) = some (rest, b) := ih b hrest
    simp [splitFirst, hc, hstep]

theorem splitn_of_not_mem (sep : Char) (n : Nat) (s : List Char) (h : sep ∉ s) :
    splitn sep (n + 1) s = [s] := by
  cases n with
  | zero => rfl
  | succ m =>
    simp only [splitn, (splitFirst_eq_none sep s).mpr h]

theorem rsplitn_of_not_mem (sep : Char) (s : List Char) (h : sep ∉ s) :
    rsplitn sep 2 s = [s] := by
  have hrev : sep ∉ s.reverse := fun hm => h (List.mem_reverse.mp hm)
  simp [rsplitn, splitn_of_not_mem sep 1 s.reverse hrev]

theorem rsplitn_last (sep : Char) (l c : List Char) (h : sep ∉ c) :
    rsplitn sep 2 (l ++ sep :: c) = [c, l] := by
  have hrev : (l ++ sep :: c).reverse = c.reverse ++ sep :: l.reverse := by
    simp [List.reverse_append]
  have hcrev : sep ∉ c.reverse := fun hm => h (List.mem_reverse.mp hm)
  simp only [rsplitn, hrev, splitn, splitFirst_append sep c.reverse l.reverse hcrev]
  simp

theorem splitn_two_sep (sep : Char) (a b : List Char) (h : sep ∉ a) :
    splitn sep 2 (a ++ sep :: b) = [a, b] := by
  simp only [splitn, splitFirst_append sep a b h]

theorem splitn_three_sep (sep : Char) (a b : List Char) (ha : sep ∉ a) :
    splitn sep 3 (a ++ sep :: b) = a :: splitn sep 2 b := by
  simp only [splitn, splitFirst_append sep a b ha]

theorem count_decomp (sep : Char) (a b : List Char) (ha : sep ∉ a) :
    (a ++ sep :: b).count sep = b.count sep + 1 := by
  have hca : a.count sep = 0 := List.count_eq_zero.mpr ha
  simp [List.count_append, List.count_cons, hca]

theorem dotCount_one_decomp (t : List Char) (h : dotCount t = 1) :
    ∃ a b, t = a ++ '.' :: b ∧ '.' ∉ a ∧ '.' ∉ b := by
  have hmem : '.' ∈ t := by
    by_contra hn
    rw [dotCount, List.count_eq_zero.mpr hn] at h
    exact Nat.noConfusion h
  cases hs : splitFirst '.' t with
  | none =>
    exact absurd ((splitFirst_eq_none '.' t).mp hs) (fun hn => hn hmem)
  | some p =>
    obtain ⟨a, b⟩ := p
    obtain ⟨ht, hna⟩ := splitFirst_eq_some '.' t a b hs
    refine ⟨a, b, ht, hna, ?_⟩
    have hcount : (a ++ '.' :: b).count '.' = b.count '.' + 1 :=
      count_decomp '.' a b hna
    rw [dotCount, ht, hcount] at h
    have hb : b.count '.' = 0 := by omega
    exact List.count_eq_zero.mp hb

/-- Helper: a successful `List.find?` returns a satisfying element and splits
the list at its first satisfying position. -/
theorem find_first_decomp {α : Type} (p : α → Bool) :
    ∀ (l : List α) (a : α), l.find? p = some a →
      p a = true ∧ ∃ l1 l2, l = l1 ++ a :: l2 ∧ ∀ x ∈ l1, p x = false := by
  intro l
  induction l with
  | nil =>
    intro a h
    simp [List.find?] at h
  | cons c rest ih =>
    intro a h
    by_cases hc : p c
    · rw [List.find?_cons_of_pos _ hc] at h
      obtain rfl : c = a := Option.some.inj h
      exact ⟨hc, [], rest, rfl, by simp⟩
    · rw [List.find?_cons_of_neg _ (by simpa using hc)] at h
      obtain ⟨hp, l1, l2, hdecomp, hbefore⟩ := ih a h
      refine ⟨hp, c :: l1, l2, by rw [hdecomp]; rfl, ?_⟩
      intro x hx
      rcases List.mem_cons.mp hx with hx | hx
      · subst hx
        simpa using hc
      · exact hbefore x hx

/-- C8: `find` over a JWKS performs a linear scan returning the first JWK
whose `kid` field equals the query (also when duplicates exist), and returns
`none` exactly when no JWK's `kid` matches — in particular when the JWKs have
no `kid` field at all. -/
theorem C8_find_first_match (jwks : JWKS) (kid : String) :
    (∀ jwk, jwks.find kid = some jwk →
      jwk.kid = some kid ∧
      ∃ l1 l2, jwks.keys = l1 ++ jwk :: l2 ∧ ∀ x ∈ l1, x.kid ≠ some kid) ∧
    (jwks.find kid = none ↔ ∀ jwk ∈ jwks.keys, jwk.kid ≠ some kid) := by
  constructor
  · intro jwk h
    obtain ⟨hp, l1, l2, hdecomp, hbefore⟩ := find_first_decomp _ jwks.keys jwk h
    refine ⟨by simpa using hp, l1, l2, hdecomp, ?_⟩
    intro x hx heq
    have hfalse := hbefore x hx
    rw [heq] at hfalse
    simp at hfalse
  · rw [JWKS.find, List.find?_eq_none]
    constructor
    · intro hall jwk hmem heq
      have := hall jwk hmem
      rw [heq] at this
      simp at this
    · intro hall jwk hmem
      simpa using hall jwk hmem

/-- A demonstration JWKS: a key with kid "zero" followed by a key with kid
"demo". -/
def demoJWKS : JWKS where
  keys := [zeroJwk, demoJwk]

/-- C8 witness: applying the find theorem to the demonstration JWKS. -/
theorem C8_find_first_match_witness :
    demoJwk.kid = some "demo" ∧
    ∃ l1 l2, demoJWKS.keys = l1 ++ demoJwk :: l2 ∧ ∀ x ∈ l1, x.kid ≠ some "demo" :=
  (C8_find_first_match demoJWKS "demo").1 demoJwk rfl

/-- C10: the `validations` argument has no effect on the result of
`validate`: the source function receives the directive list but its body
never consults it, so any two directive lists give identical results. -/
theorem C10_validations_ignored (C : Collab) (token : List Char) (jwk : JWK)
    (v1 v2 : List Validation) :
    validate C token jwk v1 = validate C token jwk v2 := rfl

/-- C6: once the verifier is constructed, the token splits and the signature
base64-decodes, `validate_jwt_signature` succeeds exactly when the verifier
reports a cryptographic match; a mismatch yields `InvalidSignature`; an
operational fault of the library yields the distinct OpenSSL error, never
`InvalidSignature`. -/
theorem C6_signature_routing (C : Collab) (key : Rsa) (ver : Verifier)
    (token sig_b64 data : List Char) (sig : List Nat)
    (hmk : C.mkVerifier key = Except.ok ver)
    (hsplit : rsplitn '.' 2 token = [sig_b64, data])
    (hdec : C.b64decode sig_b64 = some sig) :
    (validate_jwt_signature C token key = Except.ok () ↔
      C.runVerify ver (utf8Bytes data) sig = Except.ok true) ∧
    (C.runVerify ver (utf8Bytes data) sig = Except.ok false →
      validate_jwt_signature C token key =
        Except.error ValidationError.InvalidSignature) ∧
    (∀ e, C.runVerify ver (utf8Bytes data) sig = Except.error e →
      validate_jwt_signature C token key =
        Except.error (ValidationError.OpenSSL e) ∧
      ValidationError.OpenSSL e ≠ ValidationError.InvalidSignature) := by
  cases hrun : C.runVerify ver (utf8Bytes data) sig with
  | error e =>
    refine ⟨?_, ?_, ?_⟩
    · simp only [validate_jwt_signature, hmk, hsplit, hdec, hrun]
      constructor
      · intro hcontra
        exact Except.noConfusion hcontra
      · intro hcontra
        exact Except.noConfusion hcontra
    · intro hcontra
      exact Except.noConfusion hcontra
    · intro e2 he2
      obtain rfl : e = e2 := Except.error.inj he2
      constructor
      · simp only [validate_jwt_signature, hmk, hsplit, hdec, hrun]
      · intro hcontra
        exact ValidationError.noConfusion hcontra
  | ok b =>
    cases b with
    | true =>
      refine ⟨?_, ?_, ?_⟩
      · simp only [validate_jwt_signature, hmk, hsplit, hdec, hrun]
      · intro hcontra
        have := Except.ok.inj hcontra
        exact Bool.noConfusion this
      · intro e2 he2
        exact Except.noConfusion he2
    | false =>
      refine ⟨?_, ?_, ?_⟩
      · simp only [validate_jwt_signature, hmk, hsplit, hdec, hrun]
        constructor
        · intro hcontra
          exact Except.noConfusion hcontra
        · intro hcontra
          have := Except.ok.inj hcontra
          exact Bool.noConfusion this
      · intro _
        simp only [validate_jwt_signature, hmk, hsplit, hdec, hrun]
      · intro e2 he2
        exact Except.noConfusion he2

/-- C6 witness: on a concrete token under the demonstration collaborators the
verifier reports a match and signature validation succeeds. -/
theorem C6_signature_routing_witness :
    validate_jwt_signature demoCollab ("e30.e30.AA").data (65537, 65537) =
      Except.ok () :=
  ((C6_signature_routing demoCollab (65537, 65537) 0 ("e30.e30.AA").data
    ("AA").data ("e30.e30").data [0] rfl rfl rfl).1).mpr rfl

/-- C7: signature verification precedes claim decoding: a `ValidJWT` is
returned only when key reconstruction and signature verification both
succeeded, and whenever signature verification fails its error is returned
unchanged, before any header or claims segment is deserialised. -/
theorem C7_signature_before_claims (C : Collab) (token : List Char) (jwk : JWK)
    (vals : List Validation) :
    (∀ res, validate C token jwk vals = Except.ok res →
      ∃ rsa, public_key_from_jwk C jwk = Except.ok rsa ∧
        validate_jwt_signature C token rsa = Except.ok ()) ∧
    (∀ rsa e, public_key_from_jwk C jwk = Except.ok rsa →
      validate_jwt_signature C token rsa = Except.error e →
      validate C token jwk vals = Except.error e) := by
  constructor
  · intro res h
    cases hkey : public_key_from_jwk C jwk with
    | error e =>
      simp only [validate, hkey] at h
      exact Except.noConfusion h
    | ok rsa =>
      refine ⟨rsa, rfl, ?_⟩
      cases hsig : validate_jwt_signature C token rsa with
      | error e =>
        simp only [validate, hkey, hsig] at h
        exact Except.noConfusion h
      | ok u =>
        rfl
  · intro rsa e hkey hsig
    simp only [validate, hkey, hsig]

/-- C7 witness: with a verifier that reports a mismatch, `validate` returns
the signature error. -/
theorem C7_signature_before_claims_witness :
    validate mismatchCollab ("e30.e30.AA").data demoJwk [] =
      Except.error ValidationError.InvalidSignature :=
  (C7_signature_before_claims mismatchCollab ("e30.e30.AA").data demoJwk []).2
    (65537, 65537) ValidationError.InvalidSignature rfl rfl

/-- C4 (amended): key reconstruction fails with `InvalidJWK` exactly for
base64url-decoding failures of `n` or `e`; a rejection of the decoded
component values by the cryptographic library surfaces as the generic OpenSSL
error instead; and no error kind other than these two is produced. -/
theorem C4_key_reconstruction_errors (C : Collab) (jwk : JWK) :
    (C.b64decode jwk.n = none →
      public_key_from_jwk C jwk = Except.error ValidationError.InvalidJWK) ∧
    (∀ nb bn, C.b64decode jwk.n = some nb → C.bignumFromSlice nb = Except.ok bn →
      C.b64decode jwk.e = none →
      public_key_from_jwk C jwk = Except.error ValidationError.InvalidJWK) ∧
    (∀ nb bn eb en k, C.b64decode jwk.n = some nb →
      C.bignumFromSlice nb = Except.ok bn →
      C.b64decode jwk.e = some eb → C.bignumFromSlice eb = Except.ok en →
      C.rsaFromComponents bn en = Except.error k →
      public_key_from_jwk C jwk = Except.error (ValidationError.OpenSSL k)) ∧
    (∀ err, public_key_from_jwk C jwk = Except.error err →
      err = ValidationError.InvalidJWK ∨ ∃ k, err = ValidationError.OpenSSL k) := by
  refine ⟨?_, ?_, ?_, ?_⟩
  · intro hn
    simp only [public_key_from_jwk, decode_fragment, hn]
  · intro nb bn hn hbn he
    simp only [public_key_from_jwk, decode_fragment, hn, hbn, he]
  · intro nb bn eb en k hn hbn he hen hk
    simp only [public_key_from_jwk, decode_fragment, hn, hbn, he, hen, hk]
  · intro err herr
    simp only [public_key_from_jwk, decode_fragment] at herr
    cases hn : C.b64decode jwk.n with
    | none =>
      simp only [hn] at herr
      exact Or.inl (Except.error.inj herr).symm
    | some nb =>
      simp only [hn] at herr
      cases hbn : C.bignumFromSlice nb with
      | error k =>
        simp only [hbn] at herr
        exact Or.inr ⟨k, (Except.error.inj herr).symm⟩
      | ok bn =>
        simp only [hbn] at herr
        cases he : C.b64decode jwk.e with
        | none =>
          simp only [he] at herr
          exact Or.inl (Except.error.inj herr).symm
        | some eb =>
          simp only [he] at herr
          cases hen : C.bignumFromSlice eb with
          | error k =>
            simp only [hen] at herr
            exact Or.inr ⟨k, (Except.error.inj herr).symm⟩
          | ok en =>
            simp only [hen] at herr
            cases hk : C.rsaFromComponents bn en with
            | error k =>
              simp only [hk] at herr
              exact Or.inr ⟨k, (Except.error.inj herr).symm⟩
            | ok key =>
              simp only [hk] at herr
              exact Except.noConfusion herr

/-- A JWK whose modulus field is not valid base64url. -/
def badB64Jwk : JWK where
  kty := KeyType.RSA
  alg := some KeyAlgorithm.RS256
  kid := some "bad"
  n := ['!']
  e := ['A', 'Q', 'A', 'B']

/-- C4 witness: a modulus that fails to base64url-decode yields `InvalidJWK`. -/
theorem C4_key_reconstruction_errors_witness :
    public_key_from_jwk demoCollab badB64Jwk =
      Except.error ValidationError.InvalidJWK :=
  (C4_key_reconstruction_errors demoCollab badB64Jwk).1 rfl

/-- C4 counterexample to the claim as stated: when the library rejects the
decoded component values (here a zero modulus), the error is the generic
OpenSSL kind, not `InvalidJWK`. -/
theorem C4_counterexample :
    public_key_from_jwk rejectCollab zeroJwk =
      Except.error (ValidationError.OpenSSL 7) ∧
    ValidationError.OpenSSL 7 ≠ ValidationError.InvalidJWK := by
  constructor
  · rfl
  · decide

/-- C5 (amended): on a token with at least one `.` separator, `token_kid`
inspects only the header segment: it fails with `MalformedJWT` when the
segment fails to base64url-decode, fails with the JSON error kind (not
`MalformedJWT`) when the decoded bytes fail the `KidOnly` deserialisation,
and returns the optional `kid` (in particular `Ok(None)` for an absent field)
when deserialisation succeeds. -/
theorem C5_token_kid_behaviour (C : Collab) (token hdr rest : List Char)
    (hsplit : splitn '.' 2 token = [hdr, rest]) :
    (C.b64decode hdr = none →
      token_kid C token = Except.error ValidationError.MalformedJWT) ∧
    (∀ bs e, C.b64decode hdr = some bs → C.kidParse bs = Except.error e →
      token_kid C token = Except.error (ValidationError.JSON e)) ∧
    (∀ bs ko, C.b64decode hdr = some bs → C.kidParse bs = Except.ok ko →
      token_kid C token = Except.ok ko.kid) := by
  refine ⟨?_, ?_, ?_⟩
  · intro hdec
    simp only [token_kid, hsplit, deserialize_part_kid, hdec]
  · intro bs e hdec hparse
    simp only [token_kid, hsplit, deserialize_part_kid, hdec, hparse]
  · intro bs ko hdec hparse
    simp only [token_kid, hsplit, deserialize_part_kid, hdec, hparse]

/-- A token whose header segment encodes a JSON object with a kid field. -/
def kidTok : List Char :=
  b64urlEncode (utf8Bytes ("\x7b\"kid\":\"key1\"\x7d").data) ++ '.' :: 'x' :: []

/-- C5 witness: a header with a string kid field yields that kid. -/
theorem C5_token_kid_behaviour_witness :
    token_kid demoCollab kidTok = Except.ok (some "key1") :=
  (C5_token_kid_behaviour demoCollab kidTok
      (b64urlEncode (utf8Bytes ("\x7b\"kid\":\"key1\"\x7d").data)) ('x' :: [])
      rfl).2.2
    (utf8Bytes ("\x7b\"kid\":\"key1\"\x7d").data) { kid := some "key1" } rfl rfl

/-- C5 counterexample to the claim as stated: a header segment that
base64url-decodes but is not valid JSON makes `token_kid` fail with the JSON
error kind, not with `MalformedJWT`. -/
theorem C5_counterexample :
    token_kid demoCollab ("AAAA.x").data = Except.error (ValidationError.JSON 0) ∧
    ValidationError.JSON 0 ≠ ValidationError.MalformedJWT := by
  constructor
  · rfl
  · decide

/-- C2 (amended): a token with no `.` separator at all is rejected as
`MalformedJWT` both by `token_kid` and — provided key reconstruction and
verifier construction succeed, which happen first — by `validate`. -/
theorem C2_no_dot_malformed (C : Collab) (token : List Char) (jwk : JWK)
    (vals : List Validation) (rsa : Rsa) (ver : Verifier)
    (h0 : dotCount token = 0)
    (hkey : public_key_from_jwk C jwk = Except.ok rsa)
    (hmk : C.mkVerifier rsa = Except.ok ver) :
    validate C token jwk vals = Except.error ValidationError.MalformedJWT ∧
    token_kid C token = Except.error ValidationError.MalformedJWT := by
  have hnotmem : '.' ∉ token := List.count_eq_zero.mp h0
  have hr : rsplitn '.' 2 token = [token] := rsplitn_of_not_mem '.' token hnotmem
  have hs : splitn '.' 2 token = [token] := splitn_of_not_mem '.' 1 token hnotmem
  constructor
  · have hsig : validate_jwt_signature C token rsa =
        Except.error ValidationError.MalformedJWT := by
      simp only [validate_jwt_signature, hmk, hr]
    simp only [validate, hkey, hsig]
  · simp only [token_kid, hs]

/-- C2 witness: a dot-free token is malformed for both entry points. -/
theorem C2_no_dot_malformed_witness :
    validate demoCollab ("x").data demoJwk [] =
      Except.error ValidationError.MalformedJWT ∧
    token_kid demoCollab ("x").data =
      Except.error ValidationError.MalformedJWT :=
  C2_no_dot_malformed demoCollab ("x").data demoJwk [] (65537, 65537) 0
    rfl rfl rfl

/-- C2 counterexample to the claim as stated: the token "e30.AA" has exactly
one `.` separator — fewer than two — yet `token_kid` succeeds with `Ok(None)`
(its header decodes to the JSON object with no fields); and on the dot-free
token "abc", with a JWK whose components the library rejects, `validate`
returns the OpenSSL error rather than `MalformedJWT`. -/
theorem C2_counterexample :
    dotCount ("e30.AA").data = 1 ∧
    token_kid demoCollab ("e30.AA").data = Except.ok none ∧
    dotCount ("abc").data = 0 ∧
    validate rejectCollab ("abc").data zeroJwk [] =
      Except.error (ValidationError.OpenSSL 7) := by
  refine ⟨rfl, rfl, rfl, rfl⟩

/-- C3 (amended): a token with fewer than two `.` separators never yields a
`ValidJWT`: `validate` returns an error for every collaborator behaviour,
JWK and validation list. -/
theorem C3_few_separators_never_valid (C : Collab) (token : List Char)
    (jwk : JWK) (vals : List Validation) (h : dotCount token < 2) :
    (validate C token jwk vals).isOk = false := by
  cases hval : validate C token jwk vals with
  | error e => rfl
  | ok res =>
    exfalso
    cases hkey : public_key_from_jwk C jwk with
    | error e =>
      simp only [validate, hkey] at hval
      exact Except.noConfusion hval
    | ok rsa =>
      cases hmk : C.mkVerifier rsa with
      | error e =>
        have hsig : validate_jwt_signature C token rsa =
            Except.error (ValidationError.OpenSSL e) := by
          simp only [validate_jwt_signature, hmk]
        simp only [validate, hkey, hsig] at hval
        exact Except.noConfusion hval
      | ok ver =>
        have hcase : dotCount token = 0 ∨ dotCount token = 1 := by omega
        rcases hcase with h0 | h1
        · have hnotmem : '.' ∉ token := List.count_eq_zero.mp h0
          have hr : rsplitn '.' 2 token = [token] :=
            rsplitn_of_not_mem '.' token hnotmem
          have hsig : validate_jwt_signature C token rsa =
              Except.error ValidationError.MalformedJWT := by
            simp only [validate_jwt_signature, hmk, hr]
          simp only [validate, hkey, hsig] at hval
          exact Except.noConfusion hval
        · obtain ⟨a, b, ht, hna, hnb⟩ := dotCount_one_decomp token h1
          subst ht
          have hr : rsplitn '.' 2 (a ++ '.' :: b) = [b, a] :=
            rsplitn_last '.' a b hnb
          cases hdec : C.b64decode b with
          | none =>
            have hsig : validate_jwt_signature C (a ++ '.' :: b) rsa =
                Except.error ValidationError.MalformedJWT := by
              simp only [validate_jwt_signature, hmk, hr, hdec]
            simp only [validate, hkey, hsig] at hval
            exact Except.noConfusion hval
          | some sig =>
            cases hrun : C.runVerify ver (utf8Bytes a) sig with
            | error e =>
              have hsig : validate_jwt_signature C (a ++ '.' :: b) rsa =
                  Except.error (ValidationError.OpenSSL e) := by
                simp only [validate_jwt_signature, hmk, hr, hdec, hrun]
              simp only [validate, hkey, hsig] at hval
              exact Except.noConfusion hval
            | ok verdict =>
              cases verdict with
              | false =>
                have hsig : validate_jwt_signature C (a ++ '.' :: b) rsa =
                    Except.error ValidationError.InvalidSignature := by
                  simp only [validate_jwt_signature, hmk, hr, hdec, hrun]
                simp only [validate, hkey, hsig] at hval
                exact Except.noConfusion hval
              | true =>
                have hsig : validate_jwt_signature C (a ++ '.' :: b) rsa =
                    Except.ok () := by
                  simp only [validate_jwt_signature, hmk, hr, hdec, hrun]
                have hs3 : splitn '.' 3 (a ++ '.' :: b) = [a, b] := by
                  rw [splitn_three_sep '.' a b hna,
                    splitn_of_not_mem '.' 1 b hnb]
                simp only [validate, hkey, hsig, hs3] at hval
                exact Except.noConfusion hval

/-- C3 witness: a one-separator token never validates. -/
theorem C3_few_separators_never_valid_witness :
    dotCount ("e30.AA").data < 2 ∧
    (validate demoCollab ("e30.AA").data demoJwk []).isOk = false :=
  ⟨by decide,
    C3_few_separators_never_valid demoCollab ("e30.AA").data demoJwk []
      (by decide)⟩

/-- C3 counterexample to the claim as stated: a token with three `.`
separators (four segments) is not rejected as malformed — under
collaborators on which the signature over everything before the last dot
verifies, `validate` succeeds. -/
theorem C3_counterexample :
    dotCount ("e30.e30.e30.AA").data = 3 ∧
    validate demoCollab ("e30.e30.e30.AA").data demoJwk [] =
      Except.ok { headers := Json.obj [], claims := Json.obj [] } := by
  refine ⟨rfl, rfl⟩

/-- Bytes of the JSON header used in the demonstration tokens. -/
def hdrBytes : List Nat := utf8Bytes ("\x7b\"alg\":\"RS256\"\x7d").data

/-- Bytes of a JSON claim set whose issuer is "other". -/
def claimsOtherBytes : List Nat := utf8Bytes ("\x7b\"iss\":\"other\"\x7d").data

/-- A well-formed three-segment token whose claims carry issuer "other". -/
def tokC1 : List Char :=
  b64urlEncode hdrBytes ++ '.' ::
    (b64urlEncode claimsOtherBytes ++ '.' :: 'A' :: 'A' :: [])

/-- C1: the claim-validation step is missing from the code.  On a token whose
signature verifies but whose claims carry issuer "other", `validate` called
with the directive `Issuer("expected")` returns `Ok` — although the directive
fails on those claims per the specified claim-check semantics — instead of the
specified `Err(InvalidClaims)`.  This contradicts the doc comment on
`validate` itself (lib.rs lines 220-223), which promises that all claim
validations are run once signature verification passes. -/
theorem C1_claims_never_validated :
    validate demoCollab tokC1 demoJwk [Validation.Issuer "expected"] =
      Except.ok { headers := Json.obj [("alg", Json.str "RS256")],
                  claims := Json.obj [("iss", Json.str "other")] } ∧
    validate_claim (Validation.Issuer "expected")
      (Json.obj [("iss", Json.str "other")]) = false ∧
    validate demoCollab tokC1 demoJwk [Validation.Issuer "expected"] ≠
      Except.error ValidationError.InvalidClaims := by
  refine ⟨rfl, rfl, ?_⟩
  intro hcontra
  exact Except.noConfusion hcontra

/-- C9: round trip.  For any collaborators, take header and payload JSON
values, serialise and base64url-encode them into segments (hypotheses
`hdec1`/`hparse1` and `hdec2`/`hparse2` state exactly that the segments
decode and parse back to the originals, i.e. the codec round-trip contracts),
and a signature segment that the verifier accepts for the signed prefix
`header64 ++ "." ++ payload64` (hypothesis `hver`, the signing contract).
Then `validate` with the corresponding JWK and the empty validation list
succeeds and returns exactly the original header and payload values. -/
theorem C9_round_trip (C : Collab) (h p : Json) (h64 p64 s64 : List Char)
    (hb pb sig : List Nat) (jwk : JWK) (rsa : Rsa) (ver : Verifier)
    (hnd1 : '.' ∉ h64) (hnd2 : '.' ∉ p64) (hnd3 : '.' ∉ s64)
    (hdec1 : C.b64decode h64 = some hb) (hdec2 : C.b64decode p64 = some pb)
    (hdec3 : C.b64decode s64 = some sig)
    (hparse1 : C.jsonParse hb = Except.ok h)
    (hparse2 : C.jsonParse pb = Except.ok p)
    (hkey : public_key_from_jwk C jwk = Except.ok rsa)
    (hmk : C.mkVerifier rsa = Except.ok ver)
    (hver : C.runVerify ver (utf8Bytes (h64 ++ '.' :: p64)) sig =
      Except.ok true) :
    validate C (h64 ++ '.' :: p64 ++ '.' :: s64) jwk [] =
      Except.ok { headers := h, claims := p } := by
  have hassoc : h64 ++ '.' :: p64 ++ '.' :: s64 =
      (h64 ++ '.' :: p64) ++ '.' :: s64 := by
    simp
  have hr : rsplitn '.' 2 (h64 ++ '.' :: p64 ++ '.' :: s64) =
      [s64, h64 ++ '.' :: p64] := by
    rw [hassoc]
    exact rsplitn_last '.' (h64 ++ '.' :: p64) s64 hnd3
  have hsig : validate_jwt_signature C (h64 ++ '.' :: p64 ++ '.' :: s64) rsa =
      Except.ok () := by
    simp only [validate_jwt_signature, hmk, hr, hdec3, hver]
  have hcons : h64 ++ '.' :: p64 ++ '.' :: s64 =
      h64 ++ '.' :: (p64 ++ '.' :: s64) := by
    simp
  have hs3 : splitn '.' 3 (h64 ++ '.' :: p64 ++ '.' :: s64) =
      [h64, p64, s64] := by
    rw [hcons, splitn_three_sep '.' h64 (p64 ++ '.' :: s64) hnd1,
      splitn_two_sep '.' p64 s64 hnd2]
  simp only [validate, hkey, hsig, hs3, deserialize_part_json, hdec1, hparse1,
    hdec2, hparse2]

/-- Bytes of a JSON claim set containing subject "42". -/
def claimsSubBytes : List Nat := utf8Bytes ("\x7b\"sub\":\"42\"\x7d").data

/-- C9 witness: a concrete round trip through the demonstration codecs. -/
theorem C9_round_trip_witness :
    validate demoCollab
      (b64urlEncode hdrBytes ++ '.' ::
        (b64urlEncode claimsSubBytes ++ '.' :: 'B' :: 'B' :: [])) demoJwk [] =
      Except.ok { headers := Json.obj [("alg", Json.str "RS256")],
                  claims := Json.obj [("sub", Json.str "42")] } :=
  C9_round_trip demoCollab (Json.obj [("alg", Json.str "RS256")])
    (Json.obj [("sub", Json.str "42")])
    (b64urlEncode hdrBytes) (b64urlEncode claimsSubBytes) ('B' :: 'B' :: [])
    hdrBytes claimsSubBytes [4] demoJwk (65537, 65537) 0
    (by decide) (by decide) (by decide) rfl rfl rfl rfl rfl rfl rfl rfl
